/-
Verification of the EngagePerfect wizard state machine and media edit engine.

The definitions below are a shallow embedding of the two core source files:
  * the wizard context (`WizardProvider` in WizardContext.jsx: `goToNextStep`,
    `goToPrevStep`, `goToStep`, `updateFormData`, `isStepCompleted`,
    `resetWizard`), and
  * the upload/edit step (UploadMediaStep.jsx: file selection, object-URL
    lifecycle, filters, rotation, the three-phase crop gesture, text overlay,
    and the crop/text interaction modes).

JavaScript numbers are modelled as `Int` (step indices, rotation degrees) and
`Rat` (normalized pointer coordinates); JS objects used as string-keyed maps
are modelled as association lists preserving JS key-insertion order; the
browser object-URL registry (`URL.createObjectURL` / `URL.revokeObjectURL`)
is modelled by a fresh-id counter plus the list of live ids.
-/
import Mathlib

/-- A step descriptor `{id, label, component}`; the render capability is
irrelevant to the state machine and omitted. -/
structure Step where
  id : String
  label : String
deriving DecidableEq

/-- A JavaScript value stored in the `formData` bag.  The wizard state machine
never inspects values, so a small closed universe suffices. -/
inductive JsVal where
  | str : String → JsVal
  | num : Int → JsVal
  | bool : Bool → JsVal
  | null : JsVal
deriving DecidableEq

/-- A JS object used as a string-keyed map, in key-insertion order. -/
abbrev JsObj := List (String × JsVal)

/-- Spread-merge `{...prev, ...patch}`: keys already in `prev` keep their
position and receive the value from `patch` when present; keys only in
`patch` are appended in order. -/
def mergeData (prev patch : JsObj) : JsObj :=
  (prev.map (fun p =>
    match patch.find? (fun q => q.1 == p.1) with
    | some q => (p.1, q.2)
    | none => p))
  ++ patch.filter (fun q => (prev.find? (fun p => p.1 == q.1)).isNone)

/-- Insertion into a JS object used as a set (`{...prev, [key]: true}`):
if the key is present the object is unchanged, otherwise the key is appended
(JS key-insertion order). -/
def objInsert (l : List String) (k : String) : List String :=
  if k ∈ l then l else l ++ [k]

/-- The state owned by `WizardProvider`: the fixed step list and the three
`useState` cells (`currentStep`, `formData`, `completedSteps`). -/
structure WizardState where
  steps : List Step
  currentStep : Int
  formData : JsObj
  completedSteps : List String
deriving DecidableEq

/-- Initialization of `WizardProvider`: `useState(0)`, `useState(initialData)`,
`useState({})`.  The source performs no emptiness check on `steps`. -/
def initWizard (steps : List Step) (initialData : JsObj) : WizardState :=
  { steps := steps
    currentStep := 0
    formData := initialData
    completedSteps := [] }

/-- `const totalSteps = steps.length`. -/
def totalSteps (s : WizardState) : Int :=
  s.steps.length

/-- JS `steps[i]?.id`: `some` of the id when `i` is a valid array index,
`none` (JS `undefined`) otherwise. -/
def stepIdAt? (steps : List Step) (i : Int) : Option String :=
  if h : 0 ≤ i ∧ i.toNat < steps.length then
    some (steps.get ⟨i.toNat, h.2⟩).id
  else
    none

/-- `const currentStepId = steps[currentStep]?.id`, as the string later used
as an object key: an undefined id stringifies to `"undefined"`. -/
def currentKey (s : WizardState) : String :=
  (stepIdAt? s.steps s.currentStep).getD "undefined"

/-- `goToNextStep`: when not on the last step, mark the current step id as
completed and increment `currentStep`; otherwise do nothing. -/
def goToNextStep (s : WizardState) : WizardState :=
  if s.currentStep < totalSteps s - 1 then
    { s with
      completedSteps := objInsert s.completedSteps (currentKey s)
      currentStep := s.currentStep + 1 }
  else
    s

/-- `goToPrevStep`: decrement `currentStep` unless on the first step. -/
def goToPrevStep (s : WizardState) : WizardState :=
  if 0 < s.currentStep then
    { s with currentStep := s.currentStep - 1 }
  else
    s

/-- `goToStep(stepIndex)`: the source computes
`isCompletedStep = Object.keys(completedSteps).length >= stepIndex` and
`isNextAvailableStep = stepIndex === Object.keys(completedSteps).length`,
and jumps iff `stepIndex` is in bounds and one of the two holds. -/
def goToStep (s : WizardState) (stepIndex : Int) : WizardState :=
  if 0 ≤ stepIndex ∧ stepIndex < totalSteps s ∧
      ((s.completedSteps.length : Int) ≥ stepIndex ∨
        stepIndex = (s.completedSteps.length : Int)) then
    { s with currentStep := stepIndex }
  else
    s

/-- `updateFormData(newData)`: shallow spread-merge into `formData`. -/
def updateFormData (s : WizardState) (newData : JsObj) : WizardState :=
  { s with formData := mergeData s.formData newData }

/-- `isStepCompleted(stepIndex)`: `!!completedSteps[steps[stepIndex]?.id]`. -/
def isStepCompleted (s : WizardState) (stepIndex : Int) : Bool :=
  s.completedSteps.contains ((stepIdAt? s.steps stepIndex).getD "undefined")

/-- `resetWizard(newInitialData = {})`. -/
def resetWizard (s : WizardState) (newInitialData : JsObj) : WizardState :=
  { s with
    currentStep := 0
    formData := newInitialData
    completedSteps := [] }

/-- One user-level operation on the wizard state machine. -/
inductive WizardOp where
  | next : WizardOp
  | prev : WizardOp
  | jump : Int → WizardOp
  | update : JsObj → WizardOp
  | reset : JsObj → WizardOp

/-- Interpretation of one wizard operation. -/
def applyWizardOp (s : WizardState) : WizardOp → WizardState
  | .next => goToNextStep s
  | .prev => goToPrevStep s
  | .jump k => goToStep s k
  | .update d => updateFormData s d
  | .reset d => resetWizard s d

/-- Run a sequence of wizard operations from a state. -/
def runWizard (s : WizardState) (ops : List WizardOp) : WizardState :=
  ops.foldl applyWizardOp s

/-- The states of a wizard mounted with `steps` and `initialData` reachable by
any sequence of user operations. -/
def WizardReachable (steps : List Step) (initialData : JsObj)
    (s : WizardState) : Prop :=
  ∃ ops : List WizardOp, s = runWizard (initWizard steps initialData) ops

/-- The invariant maintained by the wizard on reachable states (for pairwise
distinct step ids): the index is in bounds and at most the completion count,
the completion count is below the number of steps, and the completed set is
exactly the ids of the first `completedSteps.length` steps, in order. -/
def WizardGood (s : WizardState) : Prop :=
  0 ≤ s.currentStep ∧
  s.currentStep < (s.steps.length : Int) ∧
  s.currentStep ≤ (s.completedSteps.length : Int) ∧
  s.completedSteps.length < s.steps.length ∧
  s.completedSteps = (s.steps.map Step.id).take s.completedSteps.length

/-- The bounds-only invariant, which needs no distinctness of step ids. -/
def WizardBounds (s : WizardState) : Prop :=
  0 ≤ s.currentStep ∧ s.currentStep < (s.steps.length : Int)

/-- A selected file: its MIME type and its size in bytes. -/
structure JsFile where
  type : String
  size : Nat
deriving DecidableEq

/-- A previewable media reference held in `formData.mediaUrl`: a browser
object URL (identified by its allocation number), a canvas data URL carrying
the synthesized raster's dimensions and MIME type, or the empty string. -/
inductive MediaUrl where
  | objectUrl : Nat → MediaUrl
  | dataUrl : Rat → Rat → String → MediaUrl
  | empty : MediaUrl
deriving DecidableEq

/-- A 2-D point (normalized pointer coordinates or percentage position). -/
structure Point where
  x : Rat
  y : Rat
deriving DecidableEq

/-- The drag anchor recorded by `handleTextDragStart`. -/
structure DragStart where
  mouseX : Rat
  mouseY : Rat
  textX : Rat
  textY : Rat
deriving DecidableEq

/-- `const supportedTypes = [...]` in UploadMediaStep.jsx. -/
def supportedTypes : List String :=
  ["image/jpeg", "image/png", "image/gif", "image/webp",
   "video/mp4", "video/quicktime", "video/x-msvideo"]

/-- `const MAX_FILE_SIZE = 50 * 1024 * 1024`. -/
def maxFileSize : Nat := 50 * 1024 * 1024

/-- The state of the upload/edit step: the component's `useState` cells, the
media-related slice of the wizard `formData` it reads and writes (fields
prefixed `fd`), and the browser object-URL registry (a fresh-allocation
counter plus the list of ids created and not yet revoked).  `imageNatural`
models the rendered image element's natural pixel dimensions
(`imageRef.current.naturalWidth/naturalHeight`), `none` while no image
element is available. -/
structure MediaState where
  error : String
  showEditor : Bool
  filter : String
  rotation : Int
  cropStart : Point
  cropEnd : Point
  isCropping : Bool
  cropPreview : Option MediaUrl
  isAddingText : Bool
  textOverlay : String
  textPosition : Point
  editHistory : List String
  currentEdit : Nat
  isDraggingText : Bool
  dragStartPos : DragStart
  showEmojiPicker : Bool
  textRotation : Rat
  isRotatingText : Bool
  media : Option JsFile
  mediaUrl : MediaUrl
  mediaType : String
  fdFilter : String
  fdRotation : Int
  fdTextOverlay : String
  fdTextPosition : Point
  fdTextRotation : Rat
  filtersApplied : List String
  isTextOnly : Bool
  editsSaved : Bool
  nextUrlId : Nat
  liveUrls : List Nat
  imageNatural : Option (Rat × Rat)
deriving DecidableEq

/-- The initial `useState` values of the component, with the media-related
`formData` fields at their JS-undefined stand-ins (the host page mounts the
wizard with initial data not containing them). -/
def mediaInit : MediaState :=
  { error := ""
    showEditor := false
    filter := "none"
    rotation := 0
    cropStart := ⟨50, 90⟩
    cropEnd := ⟨50, 90⟩
    isCropping := false
    cropPreview := none
    isAddingText := false
    textOverlay := ""
    textPosition := ⟨50, 90⟩
    editHistory := []
    currentEdit := 0
    isDraggingText := false
    dragStartPos := ⟨0, 0, 0, 0⟩
    showEmojiPicker := false
    textRotation := 0
    isRotatingText := false
    media := none
    mediaUrl := .empty
    mediaType := ""
    fdFilter := ""
    fdRotation := 0
    fdTextOverlay := ""
    fdTextPosition := ⟨50, 90⟩
    fdTextRotation := 0
    filtersApplied := []
    isTextOnly := false
    editsSaved := false
    nextUrlId := 0
    liveUrls := []
    imageNatural := none }

/-- `URL.revokeObjectURL(url)`: drops an object URL from the registry of live
references; a non-object URL (data URL or empty string) is left alone. -/
def revokeUrl (live : List Nat) : MediaUrl → List Nat
  | .objectUrl n => live.filter (fun u => u ≠ n)
  | _ => live

/-- `handleFileSelection(file)`: clears the error, rejects unsupported MIME
types and files over 50 MB with an error message, otherwise allocates a new
object URL (`URL.createObjectURL`), resets the editing sub-state, and writes
the media fields into the wizard form data.  The source does not revoke the
previously held `formData.mediaUrl` on this path. -/
def handleFileSelection (s : MediaState) (f : JsFile) : MediaState :=
  let s := { s with error := "" }
  if supportedTypes.contains f.type = false then
    { s with error := "Unsupported file type. Please upload an image or video." }
  else if maxFileSize < f.size then
    { s with error := "File is too large. Maximum size is 50MB." }
  else
    let mType := if f.type.startsWith "image/" then "image" else "video"
    { s with
      nextUrlId := s.nextUrlId + 1
      liveUrls := s.liveUrls ++ [s.nextUrlId]
      filter := "none"
      rotation := 0
      isCropping := false
      isAddingText := false
      textOverlay := ""
      textPosition := ⟨50, 90⟩
      editHistory := []
      currentEdit := 0
      media := some f
      mediaUrl := .objectUrl s.nextUrlId
      mediaType := mType
      fdFilter := "none"
      fdRotation := 0
      fdTextOverlay := ""
      fdTextPosition := ⟨50, 90⟩
      filtersApplied := []
      imageNatural := none
      showEditor := true }

/-- The rendered image element reporting its natural pixel dimensions once an
image source has loaded (the rendering-surface collaborator of §6). -/
def imageLoad (s : MediaState) (w h : Rat) : MediaState :=
  { s with imageNatural := some (w, h) }

/-- `removeMedia()`: revokes the held object URL when `formData.mediaUrl` is
truthy, clears the media fields of the form data and hides the editor. -/
def removeMedia (s : MediaState) : MediaState :=
  let live := if s.mediaUrl ≠ .empty then revokeUrl s.liveUrls s.mediaUrl else s.liveUrls
  { s with
    liveUrls := live
    media := none
    mediaUrl := .empty
    mediaType := ""
    fdFilter := ""
    fdRotation := 0
    fdTextOverlay := ""
    fdTextPosition := ⟨50, 90⟩
    filtersApplied := []
    imageNatural := none
    showEditor := false }

/-- `createTextOnlyCaption()`: marks the form data as text-only (the
`goToNextStep()` call it then makes belongs to the wizard machine). -/
def createTextOnlyCaption (s : MediaState) : MediaState :=
  { s with
    media := none
    mediaUrl := .empty
    mediaType := "text-only"
    isTextOnly := true
    imageNatural := none }

/-- `applyFilter(filterId)`: sets the filter and appends to the
`filtersApplied` log unless the filter is `none` or already logged. -/
def applyFilter (s : MediaState) (filterId : String) : MediaState :=
  let s := { s with filter := filterId }
  if filterId ≠ "none" ∧ s.filtersApplied.contains filterId = false then
    { s with fdFilter := filterId, filtersApplied := s.filtersApplied ++ [filterId] }
  else
    { s with fdFilter := filterId }

/-- The clockwise branch of `rotateMedia`: `(rotation + 90) % 360` with the
JS remainder operator (truncated remainder). -/
def rotCW (r : Int) : Int :=
  (r + 90).tmod 360

/-- The counter-clockwise branch of `rotateMedia`:
`(rotation - 90 + 360) % 360` with the JS remainder operator. -/
def rotCCW (r : Int) : Int :=
  (r - 90 + 360).tmod 360

/-- `rotateMedia(direction)`. -/
def rotateMedia (s : MediaState) (direction : String) : MediaState :=
  let newRotation := if direction = "clockwise" then rotCW s.rotation else rotCCW s.rotation
  { s with rotation := newRotation, fdRotation := newRotation }

/-- `handleCropStart(e)`: in crop mode, set both gesture corners to the
pointer position normalized by the container rectangle (taken here as the
already-normalized point). -/
def handleCropStart (s : MediaState) (p : Point) : MediaState :=
  if s.isCropping = false then s
  else { s with cropStart := p, cropEnd := p }

/-- `Math.min(Math.max(v, 0), 1)`. -/
def clamp01 (v : Rat) : Rat :=
  min (max v 0) 1

/-- `handleCropMove(e)`: in crop mode, update the gesture end to the pointer
position clamped to the unit square. -/
def handleCropMove (s : MediaState) (p : Point) : MediaState :=
  if s.isCropping = false then s
  else { s with cropEnd := ⟨clamp01 p.x, clamp01 p.y⟩ }

/-- `const minSize = 0.05`. -/
def minSize : Rat := 5 / 100

/-- `formData.media.type`, the MIME type handed to `canvas.toDataURL`. -/
def mediaMime (s : MediaState) : String :=
  match s.media with
  | some f => f.type
  | none => ""

/-- `handleCropEnd()`: discard the gesture unless both axes span at least 5%
of the container; otherwise normalize the rectangle (min/max of the two
corners) and, for image media with a rendered image element, synthesize a
cropped raster of `(endX-startX)*naturalWidth` by `(endY-startY)*naturalHeight`
pixels as a data URL held as the pending `cropPreview`. -/
def handleCropEnd (s : MediaState) : MediaState :=
  if s.isCropping = false then s
  else if |s.cropEnd.x - s.cropStart.x| < minSize ∨ |s.cropEnd.y - s.cropStart.y| < minSize then s
  else
    let startX := min s.cropStart.x s.cropEnd.x
    let startY := min s.cropStart.y s.cropEnd.y
    let endX := max s.cropStart.x s.cropEnd.x
    let endY := max s.cropStart.y s.cropEnd.y
    if s.mediaType = "image" then
      match s.imageNatural with
      | some (w, h) =>
          { s with cropPreview := some (.dataUrl ((endX - startX) * w) ((endY - startY) * h) (mediaMime s)) }
      | none => s
    else s

/-- `applyCrop()`: when a pending preview exists, revoke the old previewable
reference, install the preview as the new `formData.mediaUrl`, and leave crop
mode. -/
def applyCrop (s : MediaState) : MediaState :=
  match s.cropPreview with
  | some url =>
      let live := if s.mediaUrl ≠ .empty then revokeUrl s.liveUrls s.mediaUrl else s.liveUrls
      { s with liveUrls := live, mediaUrl := url, isCropping := false, cropPreview := none }
  | none => s

/-- `cancelCrop()`. -/
def cancelCrop (s : MediaState) : MediaState :=
  { s with isCropping := false, cropPreview := none }

/-- `toggleCropMode()`: exit crop mode (discarding any pending preview) when
already in it; otherwise enter crop mode and turn off text mode. -/
def toggleCropMode (s : MediaState) : MediaState :=
  if s.isCropping then
    { s with isCropping := false, cropPreview := none }
  else
    { s with isCropping := true, isAddingText := false }

/-- `toggleTextMode()`: flip the text-mode flag; the subsequent branch reads
the OLD flag value (a closure over the render's state), so turning the mode
off persists the overlay into the form data when non-empty, and turning it on
disables crop mode. -/
def toggleTextMode (s : MediaState) : MediaState :=
  let s' := { s with isAddingText := !s.isAddingText }
  if s.isAddingText then
    if s.textOverlay ≠ "" then
      { s' with
        fdTextOverlay := s.textOverlay
        fdTextPosition := s.textPosition
        fdTextRotation := s.textRotation }
    else s'
  else
    { s' with isCropping := false }

/-- `handleTextChange(e)`. -/
def handleTextChange (s : MediaState) (v : String) : MediaState :=
  { s with textOverlay := v, fdTextOverlay := v }

/-- `handleTextPositionChange(x, y)`: clamp both axes to `[0, 100]`. -/
def handleTextPositionChange (s : MediaState) (x y : Rat) : MediaState :=
  let p : Point := ⟨max 0 (min 100 x), max 0 (min 100 y)⟩
  { s with textPosition := p, fdTextPosition := p }

/-- `positionTextAtBottom()`. -/
def positionTextAtBottom (s : MediaState) : MediaState :=
  { s with textPosition := ⟨50, 90⟩, fdTextPosition := ⟨50, 90⟩ }

/-- `handleTextDragStart(e)`: in text mode, record the pointer and overlay
anchor and enter the transient dragging sub-mode. -/
def handleTextDragStart (s : MediaState) (p : Point) : MediaState :=
  if s.isAddingText = false then s
  else
    { s with
      dragStartPos := ⟨p.x, p.y, s.textPosition.x, s.textPosition.y⟩
      isDraggingText := true }

/-- `handleTextDragMove(e)`: translate the pixel drag delta into a percentage
of the container's rendered size (`rect.width` and `rect.height`, taken as
parameters of the rendering surface) and reposition with clamping. -/
def handleTextDragMove (s : MediaState) (p : Point) (rectW rectH : Rat) : MediaState :=
  if s.isDraggingText = false ∨ s.isAddingText = false then s
  else
    let deltaXPercent := (p.x - s.dragStartPos.mouseX) / rectW * 100
    let deltaYPercent := (p.y - s.dragStartPos.mouseY) / rectH * 100
    handleTextPositionChange s (s.dragStartPos.textX + deltaXPercent)
      (s.dragStartPos.textY + deltaYPercent)

/-- `handleTextDragEnd()`. -/
def handleTextDragEnd (s : MediaState) : MediaState :=
  if s.isDraggingText then
    { s with isDraggingText := false, fdTextPosition := s.textPosition }
  else s

/-- `handleRotationStart(e)`. -/
def handleRotationStart (s : MediaState) : MediaState :=
  if s.isAddingText = false then s
  else { s with isRotatingText := true }

/-- `handleRotationMove(e)`: the source sets the overlay rotation to the
`atan2` angle (in degrees) between the overlay anchor and the pointer; the
angle is transcendental in the pointer coordinates and is taken here as the
input parameter, since no claim depends on its value. -/
def handleRotationMove (s : MediaState) (angle : Rat) : MediaState :=
  if s.isRotatingText = false ∨ s.isAddingText = false then s
  else { s with textRotation := angle }

/-- `handleRotationEnd()`. -/
def handleRotationEnd (s : MediaState) : MediaState :=
  if s.isRotatingText then
    { s with isRotatingText := false, fdTextRotation := s.textRotation }
  else s

/-- `resetEdits()`: defaults for filter, rotation, text and crop sub-state,
in both the component state and the form data; the media itself is kept. -/
def resetEdits (s : MediaState) : MediaState :=
  { s with
    filter := "none"
    rotation := 0
    textRotation := 0
    isCropping := false
    isAddingText := false
    textOverlay := ""
    textPosition := ⟨50, 90⟩
    fdFilter := "none"
    fdRotation := 0
    fdTextRotation := 0
    fdTextOverlay := ""
    fdTextPosition := ⟨50, 90⟩
    filtersApplied := [] }

/-- `saveEdits()`. -/
def saveEdits (s : MediaState) : MediaState :=
  { s with
    editsSaved := true
    fdTextOverlay := s.textOverlay
    fdTextPosition := s.textPosition
    fdTextRotation := s.textRotation
    fdFilter := s.filter
    fdRotation := s.rotation }

/-- The emoji-picker click: appends the emoji to the overlay text (in the
component state and, via `updateFormData`, in the form data — the source
computes both from the render-scope value) and closes the picker. -/
def emojiClick (s : MediaState) (e : String) : MediaState :=
  { s with
    textOverlay := s.textOverlay ++ e
    fdTextOverlay := s.textOverlay ++ e
    showEmojiPicker := false }

/-- The emoji-picker toggle button. -/
def togglePicker (s : MediaState) : MediaState :=
  { s with showEmojiPicker := !s.showEmojiPicker }

/-- The "Reset rotation" button of the text panel. -/
def resetTextRotation (s : MediaState) : MediaState :=
  { s with textRotation := 0, fdTextRotation := 0 }

/-- The media container's `onMouseDown` dispatcher. -/
def containerMouseDown (s : MediaState) (p : Point) : MediaState :=
  if s.isCropping then handleCropStart s p else s

/-- The media container's `onMouseMove` dispatcher; `rectW`, `rectH` and
`angle` are the rendering-surface data consumed by the dispatched handler. -/
def containerMouseMove (s : MediaState) (p : Point) (rectW rectH angle : Rat) : MediaState :=
  if s.isDraggingText then handleTextDragMove s p rectW rectH
  else if s.isRotatingText then handleRotationMove s angle
  else if s.isCropping then handleCropMove s p
  else s

/-- The media container's `onMouseUp` (and identical `onMouseLeave`)
dispatcher. -/
def containerMouseUp (s : MediaState) : MediaState :=
  if s.isDraggingText then handleTextDragEnd s
  else if s.isRotatingText then handleRotationEnd s
  else if s.isCropping then handleCropEnd s
  else s

/-- One user interaction (or rendering-surface event) on the upload step. -/
inductive MediaOp where
  | selectFile : JsFile → MediaOp
  | load : Rat → Rat → MediaOp
  | remove : MediaOp
  | textOnly : MediaOp
  | setFilter : String → MediaOp
  | rotate : String → MediaOp
  | mouseDown : Point → MediaOp
  | mouseMove : Point → Rat → Rat → Rat → MediaOp
  | mouseUp : MediaOp
  | mouseLeave : MediaOp
  | acceptCrop : MediaOp
  | discardCrop : MediaOp
  | toggleCrop : MediaOp
  | toggleText : MediaOp
  | textChange : String → MediaOp
  | textDragStart : Point → MediaOp
  | rotationStart : MediaOp
  | positionBottom : MediaOp
  | emoji : String → MediaOp
  | picker : MediaOp
  | resetTextAngle : MediaOp
  | resetAll : MediaOp
  | save : MediaOp

/-- Interpretation of one upload-step interaction. -/
def applyMediaOp (s : MediaState) : MediaOp → MediaState
  | .selectFile f => handleFileSelection s f
  | .load w h => imageLoad s w h
  | .remove => removeMedia s
  | .textOnly => createTextOnlyCaption s
  | .setFilter id => applyFilter s id
  | .rotate d => rotateMedia s d
  | .mouseDown p => containerMouseDown s p
  | .mouseMove p w h a => containerMouseMove s p w h a
  | .mouseUp => containerMouseUp s
  | .mouseLeave => containerMouseUp s
  | .acceptCrop => applyCrop s
  | .discardCrop => cancelCrop s
  | .toggleCrop => toggleCropMode s
  | .toggleText => toggleTextMode s
  | .textChange v => handleTextChange s v
  | .textDragStart p => handleTextDragStart s p
  | .rotationStart => handleRotationStart s
  | .positionBottom => positionTextAtBottom s
  | .emoji e => emojiClick s e
  | .picker => togglePicker s
  | .resetTextAngle => resetTextRotation s
  | .resetAll => resetEdits s
  | .save => saveEdits s

/-- Run a sequence of upload-step interactions from a state. -/
def runMedia (s : MediaState) (ops : List MediaOp) : MediaState :=
  ops.foldl applyMediaOp s

/-- The upload-step states reachable from mount by any user interactions. -/
def MediaReachable (s : MediaState) : Prop :=
  ∃ ops : List MediaOp, s = runMedia mediaInit ops

/-- A state holding one live object URL: the result of selecting a small
JPEG right after mount. -/
def heldUrlState : MediaState :=
  handleFileSelection mediaInit ⟨"image/jpeg", 1000⟩

/-- An editor state in crop mode over a 1000 by 500 image with a finished
gesture from (0.1, 0.2) to (0.6, 0.8), as produced by selecting a JPEG,
letting the image element load, entering crop mode and dragging. -/
def cropDemoState : MediaState :=
  { mediaInit with
    showEditor := true
    isCropping := true
    cropStart := ⟨1/10, 2/10⟩
    cropEnd := ⟨6/10, 8/10⟩
    media := some ⟨"image/jpeg", 1000⟩
    mediaUrl := .objectUrl 0
    mediaType := "image"
    nextUrlId := 1
    liveUrls := [0]
    imageNatural := some (1000, 500) }

theorem steps_applyWizardOp (s : WizardState) (op : WizardOp) :
    (applyWizardOp s op).steps = s.steps := by
  cases op <;>
    simp only [applyWizardOp, goToNextStep, goToPrevStep, goToStep,
      updateFormData, resetWizard] <;>
    split <;> rfl

theorem steps_runWizard (s : WizardState) (ops : List WizardOp) :
    (runWizard s ops).steps = s.steps := by
  induction ops generalizing s with
  | nil => rfl
  | cons op ops ih =>
      show (runWizard (applyWizardOp s op) ops).steps = s.steps
      rw [ih, steps_applyWizardOp]

theorem wizardBounds_applyWizardOp (s : WizardState) (op : WizardOp)
    (hb : WizardBounds s) : WizardBounds (applyWizardOp s op) := by
  obtain ⟨h0, h1⟩ := hb
  cases op with
  | next =>
      rw [applyWizardOp, goToNextStep]
      split
      · next h =>
          rw [totalSteps] at h
          refine ⟨?_, ?_⟩
          · show 0 ≤ s.currentStep + 1
            omega
          · show s.currentStep + 1 < (s.steps.length : Int)
            omega
      · exact ⟨h0, h1⟩
  | prev =>
      rw [applyWizardOp, goToPrevStep]
      split
      · next h =>
          refine ⟨?_, ?_⟩
          · show 0 ≤ s.currentStep - 1
            omega
          · show s.currentStep - 1 < (s.steps.length : Int)
            omega
      · exact ⟨h0, h1⟩
  | jump k =>
      rw [applyWizardOp, goToStep]
      split
      · next h =>
          rw [totalSteps] at h
          refine ⟨?_, ?_⟩
          · show 0 ≤ k
            exact h.1
          · show k < (s.steps.length : Int)
            exact h.2.1
      · exact ⟨h0, h1⟩
  | update d => exact ⟨h0, h1⟩
  | reset d =>
      refine ⟨?_, ?_⟩
      · show (0 : Int) ≤ 0
        omega
      · show (0 : Int) < (s.steps.length : Int)
        omega

theorem wizardGood_next (s : WizardState)
    (hnd : (s.steps.map Step.id).Nodup) (hg : WizardGood s) :
    WizardGood (goToNextStep s) := by
  obtain ⟨h0, h1, h2, h3, h4⟩ := hg
  by_cases hlt : s.currentStep < totalSteps s - 1
  · rw [goToNextStep, if_pos hlt]
    rw [totalSteps] at hlt
    have hin : s.currentStep.toNat < s.steps.length := by omega
    have hinm : s.currentStep.toNat < (s.steps.map Step.id).length := by
      simpa using hin
    have hkey : currentKey s = (s.steps.map Step.id)[s.currentStep.toNat] := by
      rw [currentKey, stepIdAt?, dif_pos ⟨h0, hin⟩]
      simp
    rcases Nat.lt_or_ge s.currentStep.toNat s.completedSteps.length with hcase | hcase
    · -- the step being left was already completed: the set is unchanged
      have htlen : s.currentStep.toNat <
          ((s.steps.map Step.id).take s.completedSteps.length).length := by
        simp only [List.length_take]
        omega
      have hmem : currentKey s ∈ s.completedSteps := by
        rw [h4, hkey]
        rw [← List.getElem_take (h := htlen)]
        exact List.getElem_mem htlen
      have hins : objInsert s.completedSteps (currentKey s) = s.completedSteps := by
        rw [objInsert, if_pos hmem]
      refine ⟨?_, ?_, ?_, ?_, ?_⟩
      · show 0 ≤ s.currentStep + 1
        omega
      · show s.currentStep + 1 < (s.steps.length : Int)
        omega
      · show s.currentStep + 1 ≤ ((objInsert s.completedSteps (currentKey s)).length : Int)
        rw [hins]
        omega
      · show (objInsert s.completedSteps (currentKey s)).length < s.steps.length
        rw [hins]
        exact h3
      · show objInsert s.completedSteps (currentKey s) =
          (s.steps.map Step.id).take (objInsert s.completedSteps (currentKey s)).length
        rw [hins]
        exact h4
    · -- the step being left is the first not-yet-completed one: it is appended
      have hieq : s.currentStep.toNat = s.completedSteps.length := by omega
      have hnotmem : currentKey s ∉ s.completedSteps := by
        rw [h4, hkey]
        intro hmem
        obtain ⟨q, hq, hq2⟩ := List.mem_iff_getElem.1 hmem
        have hqm : q < s.completedSteps.length := by
          simp only [List.length_take] at hq
          omega
        have hqn : q < (s.steps.map Step.id).length := by
          simp only [List.length_take] at hq
          omega
        rw [List.getElem_take] at hq2
        have := (List.Nodup.getElem_inj_iff hnd).1 hq2
        omega
      have hins : objInsert s.completedSteps (currentKey s) =
          s.completedSteps ++ [currentKey s] := by
        rw [objInsert, if_neg hnotmem]
      have hlen : (s.completedSteps ++ [currentKey s]).length =
          s.completedSteps.length + 1 := by
        simp
      have htake : s.completedSteps ++ [currentKey s] =
          (s.steps.map Step.id).take (s.completedSteps.length + 1) := by
        have hmlt : s.completedSteps.length < (s.steps.map Step.id).length := by
          simp only [List.length_map]
          omega
        have helem : currentKey s =
            (s.steps.map Step.id).get ⟨s.completedSteps.length, hmlt⟩ := by
          rw [hkey, List.get_eq_getElem]
          congr 1
        rw [List.take_succ, ← h4, helem, List.getElem?_eq_getElem hmlt]
        rfl
      refine ⟨?_, ?_, ?_, ?_, ?_⟩
      · show 0 ≤ s.currentStep + 1
        omega
      · show s.currentStep + 1 < (s.steps.length : Int)
        omega
      · show s.currentStep + 1 ≤ ((objInsert s.completedSteps (currentKey s)).length : Int)
        rw [hins, hlen]
        omega
      · show (objInsert s.completedSteps (currentKey s)).length < s.steps.length
        rw [hins, hlen]
        omega
      · show objInsert s.completedSteps (currentKey s) =
          (s.steps.map Step.id).take (objInsert s.completedSteps (currentKey s)).length
        rw [hins, hlen]
        exact htake
  · rw [goToNextStep, if_neg hlt]
    exact ⟨h0, h1, h2, h3, h4⟩

theorem wizardGood_applyWizardOp (s : WizardState) (op : WizardOp)
    (hnd : (s.steps.map Step.id).Nodup) (hg : WizardGood s) :
    WizardGood (applyWizardOp s op) := by
  obtain ⟨h0, h1, h2, h3, h4⟩ := hg
  cases op with
  | next => exact wizardGood_next s hnd ⟨h0, h1, h2, h3, h4⟩
  | prev =>
      rw [applyWizardOp, goToPrevStep]
      split
      · refine ⟨?_, ?_, ?_, h3, h4⟩
        · show 0 ≤ s.currentStep - 1
          omega
        · show s.currentStep - 1 < (s.steps.length : Int)
          omega
        · show s.currentStep - 1 ≤ (s.completedSteps.length : Int)
          omega
      · exact ⟨h0, h1, h2, h3, h4⟩
  | jump k =>
      rw [applyWizardOp, goToStep]
      split
      · next h =>
          rw [totalSteps] at h
          refine ⟨h.1, h.2.1, ?_, h3, h4⟩
          show k ≤ (s.completedSteps.length : Int)
          rcases h.2.2 with h' | h' <;> omega
      · exact ⟨h0, h1, h2, h3, h4⟩
  | update d => exact ⟨h0, h1, h2, h3, h4⟩
  | reset d =>
      refine ⟨?_, ?_, ?_, ?_, ?_⟩
      · show (0 : Int) ≤ 0
        omega
      · show (0 : Int) < (s.steps.length : Int)
        omega
      · show (0 : Int) ≤ (([] : List String).length : Int)
        simp
      · show ([] : List String).length < s.steps.length
        simp only [List.length_nil]
        omega
      · show ([] : List String) = (s.steps.map Step.id).take ([] : List String).length
        simp

theorem wizardGood_runWizard (s : WizardState) (ops : List WizardOp)
    (hnd : (s.steps.map Step.id).Nodup) (hg : WizardGood s) :
    WizardGood (runWizard s ops) := by
  induction ops generalizing s with
  | nil => exact hg
  | cons op ops ih =>
      show WizardGood (runWizard (applyWizardOp s op) ops)
      refine ih (applyWizardOp s op) ?_ (wizardGood_applyWizardOp s op hnd hg)
      rw [steps_applyWizardOp]
      exact hnd

theorem wizardBounds_runWizard (s : WizardState) (ops : List WizardOp)
    (hb : WizardBounds s) : WizardBounds (runWizard s ops) := by
  induction ops generalizing s with
  | nil => exact hb
  | cons op ops ih =>
      exact ih (applyWizardOp s op) (wizardBounds_applyWizardOp s op hb)

theorem wizardGood_of_reachable (steps : List Step) (d0 : JsObj) (s : WizardState)
    (hne : steps ≠ []) (hnd : (steps.map Step.id).Nodup)
    (hr : WizardReachable steps d0 s) : WizardGood s := by
  obtain ⟨ops, rfl⟩ := hr
  have hlen : 0 < steps.length := List.length_pos.2 hne
  refine wizardGood_runWizard _ ops hnd ?_
  refine ⟨le_refl 0, ?_, ?_, ?_, ?_⟩
  · show (0 : Int) < (steps.length : Int)
    omega
  · show (0 : Int) ≤ (([] : List String).length : Int)
    simp
  · show ([] : List String).length < steps.length
    simpa using hlen
  · show ([] : List String) = (steps.map Step.id).take ([] : List String).length
    simp

theorem steps_of_reachable (steps : List Step) (d0 : JsObj) (s : WizardState)
    (hr : WizardReachable steps d0 s) : s.steps = steps := by
  obtain ⟨ops, rfl⟩ := hr
  rw [steps_runWizard]
  rfl

theorem isStepCompleted_iff_lt (s : WizardState) (k : Int)
    (hnd : (s.steps.map Step.id).Nodup) (hg : WizardGood s)
    (hk0 : 0 ≤ k) (hkn : k < (s.steps.length : Int)) :
    isStepCompleted s k = true ↔ k < (s.completedSteps.length : Int) := by
  obtain ⟨h0, h1, h2, h3, h4⟩ := hg
  have hkn' : k.toNat < s.steps.length := by omega
  have hkm : k.toNat < (s.steps.map Step.id).length := by simpa using hkn'
  have hid : (stepIdAt? s.steps k).getD "undefined" = (s.steps.map Step.id)[k.toNat] := by
    rw [stepIdAt?, dif_pos ⟨hk0, hkn'⟩]
    simp
  rw [isStepCompleted, hid]
  constructor
  · intro hc
    have hmem : (s.steps.map Step.id)[k.toNat] ∈ s.completedSteps := by
      simpa [List.contains, List.elem_iff] using hc
    rw [h4] at hmem
    obtain ⟨q, hq, hq2⟩ := List.mem_iff_getElem.1 hmem
    have hqm : q < s.completedSteps.length := by
      simp only [List.length_take] at hq
      omega
    have hqn : q < (s.steps.map Step.id).length := by
      simp only [List.length_take] at hq
      omega
    rw [List.getElem_take] at hq2
    have := (List.Nodup.getElem_inj_iff hnd).1 hq2
    omega
  · intro hlt
    have htlen : k.toNat < ((s.steps.map Step.id).take s.completedSteps.length).length := by
      simp only [List.length_take]
      omega
    have hmem : (s.steps.map Step.id)[k.toNat] ∈ s.completedSteps := by
      rw [h4, ← List.getElem_take (h := htlen)]
      exact List.getElem_mem htlen
    simpa [List.contains, List.elem_iff] using hmem

/-- C1: on every reachable wizard state (with pairwise-distinct step ids),
`goToStep k` sets `currentStep` to `k` when `k` is within bounds and either
step `k` is already completed or `k` equals the number of completed steps
(the next not-yet-visited step); in every other case the whole state is
unchanged. -/
theorem wizard_goToStep_spec (steps : List Step) (d0 : JsObj) (s : WizardState)
    (k : Int) (hne : steps ≠ []) (hnd : (steps.map Step.id).Nodup)
    (hr : WizardReachable steps d0 s) :
    ((0 ≤ k ∧ k < totalSteps s ∧
        (isStepCompleted s k = true ∨ k = (s.completedSteps.length : Int))) →
      goToStep s k = { s with currentStep := k }) ∧
    (¬ (0 ≤ k ∧ k < totalSteps s ∧
        (isStepCompleted s k = true ∨ k = (s.completedSteps.length : Int))) →
      goToStep s k = s) := by
  have hst : s.steps = steps := steps_of_reachable steps d0 s hr
  have hg : WizardGood s := wizardGood_of_reachable steps d0 s hne hnd hr
  have hnd' : (s.steps.map Step.id).Nodup := by
    rw [hst]
    exact hnd
  constructor
  · rintro ⟨hk0, hkn, hor⟩
    rw [totalSteps] at hkn
    rw [goToStep, if_pos]
    refine ⟨hk0, by rw [totalSteps]; exact hkn, ?_⟩
    rcases hor with hc | hc
    · have := (isStepCompleted_iff_lt s k hnd' hg hk0 hkn).1 hc
      left
      omega
    · right
      exact hc
  · intro hcond
    rw [goToStep, if_neg]
    intro hcode
    apply hcond
    obtain ⟨hk0, hkn, hor⟩ := hcode
    rw [totalSteps] at hkn
    refine ⟨hk0, by rw [totalSteps]; exact hkn, ?_⟩
    have hle : k ≤ (s.completedSteps.length : Int) := by
      rcases hor with h' | h' <;> omega
    rcases lt_or_eq_of_le hle with h' | h'
    · left
      exact (isStepCompleted_iff_lt s k hnd' hg hk0 hkn).2 h'
    · right
      exact h'

/-- C1 witness: at the freshly mounted two-step wizard, jumping to step 0
(the next not-yet-visited step) succeeds. -/
theorem wizard_goToStep_spec_witness :
    goToStep (initWizard [⟨"a", "A"⟩, ⟨"b", "B"⟩] []) 0 =
      { initWizard [⟨"a", "A"⟩, ⟨"b", "B"⟩] [] with currentStep := 0 } :=
  (wizard_goToStep_spec [⟨"a", "A"⟩, ⟨"b", "B"⟩] [] _ 0 (by decide) (by decide)
    ⟨[], rfl⟩).1 (by decide)

/-- C2 counterexample: in the reachable initial state of a two-step wizard
with distinct ids, the count test `size(completedSteps) >= k` used inside
`goToStep` holds at `k = 0` while `steps[0].id` is not a member of
`completedSteps`, so the two do not coincide. -/
theorem wizard_countTest_membership_cex :
    ([⟨"a", "A"⟩, ⟨"b", "B"⟩].map Step.id).Nodup ∧
    WizardReachable [⟨"a", "A"⟩, ⟨"b", "B"⟩] []
      (initWizard [⟨"a", "A"⟩, ⟨"b", "B"⟩] []) ∧
    (((initWizard [⟨"a", "A"⟩, ⟨"b", "B"⟩] []).completedSteps.length : Int) ≥ 0) ∧
    isStepCompleted (initWizard [⟨"a", "A"⟩, ⟨"b", "B"⟩] []) 0 = false :=
  ⟨by decide, ⟨[], rfl⟩, by decide, by decide⟩

theorem completedSteps_mono_applyWizardOp (s : WizardState) (op : WizardOp)
    (hop : ∀ d : JsObj, op ≠ WizardOp.reset d) (x : String)
    (hx : x ∈ s.completedSteps) : x ∈ (applyWizardOp s op).completedSteps := by
  cases op with
  | next =>
      rw [applyWizardOp, goToNextStep]
      split
      · show x ∈ objInsert s.completedSteps (currentKey s)
        rw [objInsert]
        split
        · exact hx
        · exact List.mem_append_left _ hx
      · exact hx
  | prev =>
      rw [applyWizardOp, goToPrevStep]
      split
      · exact hx
      · exact hx
  | jump k =>
      rw [applyWizardOp, goToStep]
      split
      · exact hx
      · exact hx
  | update d => exact hx
  | reset d => exact absurd rfl (hop d)

theorem completedSteps_mono_runWizard (s : WizardState) (ops : List WizardOp)
    (hops : ∀ d : JsObj, WizardOp.reset d ∉ ops) (x : String)
    (hx : x ∈ s.completedSteps) : x ∈ (runWizard s ops).completedSteps := by
  induction ops generalizing s with
  | nil => exact hx
  | cons op ops ih =>
      have hx' : x ∈ (applyWizardOp s op).completedSteps := by
        refine completedSteps_mono_applyWizardOp s op (fun d hop => hops d ?_) x hx
        rw [← hop]
        exact List.mem_cons_self _ _
      exact ih (applyWizardOp s op) (fun d hd => hops d (List.mem_cons_of_mem _ hd)) hx'

/-- C2 (amended): on every reachable state with pairwise-distinct step ids,
`completedSteps` is exactly the set of ids of the first
`size(completedSteps)` steps (steps become completed strictly in ascending
order, and the set never loses an element under any sequence of operations
free of reset), and the count test `size(completedSteps) >= k` used inside
`goToStep` coincides with (`steps[k].id` is a member of `completedSteps` OR
`k = size(completedSteps)`). -/
theorem wizard_completedSteps_inOrder (steps : List Step) (d0 : JsObj)
    (s : WizardState) (hne : steps ≠ []) (hnd : (steps.map Step.id).Nodup)
    (hr : WizardReachable steps d0 s) :
    (∀ x : String, x ∈ s.completedSteps ↔
      x ∈ (steps.map Step.id).take s.completedSteps.length) ∧
    (∀ ops : List WizardOp, (∀ d : JsObj, WizardOp.reset d ∉ ops) →
      ∀ x : String, x ∈ s.completedSteps → x ∈ (runWizard s ops).completedSteps) ∧
    (∀ k : Int, 0 ≤ k → k < (steps.length : Int) →
      (((s.completedSteps.length : Int) ≥ k) ↔
        (isStepCompleted s k = true ∨ k = (s.completedSteps.length : Int)))) := by
  have hst : s.steps = steps := steps_of_reachable steps d0 s hr
  have hg : WizardGood s := wizardGood_of_reachable steps d0 s hne hnd hr
  have hnd' : (s.steps.map Step.id).Nodup := by
    rw [hst]
    exact hnd
  obtain ⟨h0, h1, h2, h3, h4⟩ := hg
  refine ⟨?_, ?_, ?_⟩
  · intro x
    rw [← hst]
    conv_lhs => rw [h4]
  · intro ops hops x hx
    exact completedSteps_mono_runWizard s ops hops x hx
  · intro k hk0 hkn
    have hkn' : k < (s.steps.length : Int) := by
      rw [hst]
      exact hkn
    constructor
    · intro hge
      rcases lt_or_eq_of_le hge with h' | h'
      · left
        exact (isStepCompleted_iff_lt s k hnd' ⟨h0, h1, h2, h3, h4⟩ hk0 hkn').2 h'
      · right
        omega
    · rintro (hc | hc)
      · have := (isStepCompleted_iff_lt s k hnd' ⟨h0, h1, h2, h3, h4⟩ hk0 hkn').1 hc
        omega
      · omega

/-- C2 witness: the amended characterization instantiated at the state after
one forward step of the two-step wizard. -/
theorem wizard_completedSteps_inOrder_witness :
    (∀ x : String,
      x ∈ (runWizard (initWizard [⟨"a", "A"⟩, ⟨"b", "B"⟩] []) [.next]).completedSteps ↔
      x ∈ ([⟨"a", "A"⟩, ⟨"b", "B"⟩].map Step.id).take
        (runWizard (initWizard [⟨"a", "A"⟩, ⟨"b", "B"⟩] []) [.next]).completedSteps.length) ∧
    (∀ ops : List WizardOp, (∀ d : JsObj, WizardOp.reset d ∉ ops) →
      ∀ x : String,
        x ∈ (runWizard (initWizard [⟨"a", "A"⟩, ⟨"b", "B"⟩] []) [.next]).completedSteps →
        x ∈ (runWizard (runWizard (initWizard [⟨"a", "A"⟩, ⟨"b", "B"⟩] []) [.next])
          ops).completedSteps) ∧
    (∀ k : Int, 0 ≤ k → k < (([⟨"a", "A"⟩, ⟨"b", "B"⟩] : List Step).length : Int) →
      ((((runWizard (initWizard [⟨"a", "A"⟩, ⟨"b", "B"⟩] []) [.next]).completedSteps.length : Int) ≥ k) ↔
        (isStepCompleted (runWizard (initWizard [⟨"a", "A"⟩, ⟨"b", "B"⟩] []) [.next]) k = true ∨
          k = ((runWizard (initWizard [⟨"a", "A"⟩, ⟨"b", "B"⟩] []) [.next]).completedSteps.length : Int)))) :=
  wizard_completedSteps_inOrder [⟨"a", "A"⟩, ⟨"b", "B"⟩] [] _ (by decide) (by decide)
    ⟨[.next], rfl⟩

/-- C4 counterexample: mounting the wizard with an empty step list does not
fail; it produces the same well-formed state as any other mount
(`currentStep = 0`, `formData = initialData`, `completedSteps` empty). -/
theorem initWizard_empty_no_failure :
    initWizard [] [] =
      { steps := [], currentStep := 0, formData := [], completedSteps := [] } :=
  rfl

/-- C4 (amended): initialization never fails; for every step list (empty
included) it produces a state with `currentStep = 0`,
`formData = initialData` and `completedSteps` empty. -/
theorem initWizard_spec (steps : List Step) (d : JsObj) :
    (initWizard steps d).currentStep = 0 ∧
    (initWizard steps d).formData = d ∧
    (initWizard steps d).completedSteps = [] :=
  ⟨rfl, rfl, rfl⟩

/-- C5: from `currentStep = i` over `n` steps, `goToNextStep` is the identity
when `i = n - 1`; otherwise it adds `steps[i].id` (the id of the step being
left) to `completedSteps` and increments the index, leaving `formData` and
everything else unchanged. -/
theorem wizard_goToNextStep_spec (s : WizardState) (i : Nat)
    (hc : s.currentStep = (i : Int)) (h : i < s.steps.length) :
    (i = s.steps.length - 1 → goToNextStep s = s) ∧
    (i < s.steps.length - 1 →
      goToNextStep s = { s with
        completedSteps := objInsert s.completedSteps (s.steps.get ⟨i, h⟩).id
        currentStep := (i : Int) + 1 }) := by
  constructor
  · intro hlast
    rw [goToNextStep, if_neg]
    rw [totalSteps, hc]
    omega
  · intro hlt
    have hkey : currentKey s = (s.steps.get ⟨i, h⟩).id := by
      rw [currentKey, hc, stepIdAt?, dif_pos ⟨Int.ofNat_nonneg i, by simpa using h⟩]
      simp
    rw [goToNextStep, if_pos, hkey, hc]
    rw [totalSteps, hc]
    omega

/-- C5 witness: advancing from step 0 of the two-step wizard records id "a"
and moves to step 1. -/
theorem wizard_goToNextStep_spec_witness :
    goToNextStep (initWizard [⟨"a", "A"⟩, ⟨"b", "B"⟩] []) =
      { initWizard [⟨"a", "A"⟩, ⟨"b", "B"⟩] [] with
        completedSteps := ["a"], currentStep := 1 } := by
  have h := (wizard_goToNextStep_spec (initWizard [⟨"a", "A"⟩, ⟨"b", "B"⟩] []) 0
    rfl (by decide)).2 (by decide)
  rw [h]
  rfl

/-- C6: on every state reachable from a mount with a non-empty step list,
`currentStep` stays in `[0, len(steps) - 1]`: no operation makes it negative
or at least the number of steps. -/
theorem wizard_currentStep_bounds (steps : List Step) (d0 : JsObj)
    (s : WizardState) (hne : steps ≠ []) (hr : WizardReachable steps d0 s) :
    0 ≤ s.currentStep ∧ s.currentStep < (steps.length : Int) := by
  obtain ⟨ops, rfl⟩ := hr
  have hlen : 0 < steps.length := List.length_pos.2 hne
  have hb : WizardBounds (runWizard (initWizard steps d0) ops) := by
    refine wizardBounds_runWizard _ ops ⟨le_refl 0, ?_⟩
    show (0 : Int) < ((initWizard steps d0).steps.length : Int)
    simp only [initWizard]
    omega
  obtain ⟨hb0, hb1⟩ := hb
  refine ⟨hb0, ?_⟩
  rw [steps_runWizard] at hb1
  exact hb1

/-- C6 witness: the bounds hold at the state reached by one forward and one
backward step of the two-step wizard. -/
theorem wizard_currentStep_bounds_witness :
    0 ≤ (runWizard (initWizard [⟨"a", "A"⟩, ⟨"b", "B"⟩] []) [.next, .prev]).currentStep ∧
    (runWizard (initWizard [⟨"a", "A"⟩, ⟨"b", "B"⟩] []) [.next, .prev]).currentStep <
      (([⟨"a", "A"⟩, ⟨"b", "B"⟩] : List Step).length : Int) :=
  wizard_currentStep_bounds [⟨"a", "A"⟩, ⟨"b", "B"⟩] [] _ (by decide)
    ⟨[.next, .prev], rfl⟩

theorem mediaMutex_applyMediaOp (s : MediaState) (op : MediaOp)
    (h : s.isCropping = false ∨ s.isAddingText = false) :
    (applyMediaOp s op).isCropping = false ∨ (applyMediaOp s op).isAddingText = false := by
  cases op <;>
    simp only [applyMediaOp, handleFileSelection, imageLoad, removeMedia,
      createTextOnlyCaption, applyFilter, rotateMedia, containerMouseDown,
      containerMouseMove, containerMouseUp, handleCropStart, handleCropMove,
      handleCropEnd, handleTextDragMove, handleTextDragEnd, handleRotationMove,
      handleRotationEnd, applyCrop, cancelCrop, toggleCropMode, toggleTextMode,
      handleTextChange, handleTextPositionChange, handleTextDragStart,
      handleRotationStart, positionTextAtBottom, emojiClick, togglePicker,
      resetTextRotation, resetEdits, saveEdits] <;>
    (repeat' split) <;>
    (first
      | exact h
      | simp_all)

theorem mediaMutex_runMedia (s : MediaState) (ops : List MediaOp)
    (h : s.isCropping = false ∨ s.isAddingText = false) :
    (runMedia s ops).isCropping = false ∨ (runMedia s ops).isAddingText = false := by
  induction ops generalizing s with
  | nil => exact h
  | cons op ops ih =>
      exact ih (applyMediaOp s op) (mediaMutex_applyMediaOp s op h)

/-- C10: in every editor state reachable by any sequence of user
interactions, crop mode and text mode are never both active. -/
theorem media_crop_text_mutex (s : MediaState) (hr : MediaReachable s) :
    ¬ (s.isCropping = true ∧ s.isAddingText = true) := by
  obtain ⟨ops, rfl⟩ := hr
  rintro ⟨hc, ha⟩
  rcases mediaMutex_runMedia mediaInit ops (Or.inl rfl) with h | h <;>
    simp_all

/-- C10 witness: the mutual exclusion at the state reached by entering crop
mode once. -/
theorem media_crop_text_mutex_witness :
    ¬ ((runMedia mediaInit [.toggleCrop]).isCropping = true ∧
      (runMedia mediaInit [.toggleCrop]).isAddingText = true) :=
  media_crop_text_mutex (runMedia mediaInit [.toggleCrop]) ⟨[.toggleCrop], rfl⟩

theorem rotateMedia_cw_rotation (s : MediaState) :
    (rotateMedia s "clockwise").rotation = rotCW s.rotation :=
  rfl

theorem rotateMedia_ccw_rotation (s : MediaState) :
    (rotateMedia s "counter-clockwise").rotation = rotCCW s.rotation :=
  rfl

theorem rotCW_eq_emod (r : Int) (h : 0 ≤ r) : rotCW r = (r + 90) % 360 := by
  rw [rotCW, Int.tmod_eq_emod (by omega) (by omega)]

theorem rotCCW_eq_emod (r : Int) (h : 0 ≤ r) : rotCCW r = (r - 90) % 360 := by
  rw [rotCCW, Int.tmod_eq_emod (by omega) (by omega)]
  omega

theorem rotCW_bounds (r : Int) (h0 : 0 ≤ r) :
    0 ≤ rotCW r ∧ rotCW r < 360 := by
  rw [rotCW_eq_emod r h0]
  omega

theorem rotCCW_bounds (r : Int) (h0 : 0 ≤ r) :
    0 ≤ rotCCW r ∧ rotCCW r < 360 := by
  rw [rotCCW_eq_emod r h0]
  omega

theorem mediaRotation_applyMediaOp (s : MediaState) (op : MediaOp)
    (h : 0 ≤ s.rotation ∧ s.rotation < 360) :
    0 ≤ (applyMediaOp s op).rotation ∧ (applyMediaOp s op).rotation < 360 := by
  cases op <;>
    simp only [applyMediaOp, handleFileSelection, imageLoad, removeMedia,
      createTextOnlyCaption, applyFilter, rotateMedia, containerMouseDown,
      containerMouseMove, containerMouseUp, handleCropStart, handleCropMove,
      handleCropEnd, handleTextDragMove, handleTextDragEnd, handleRotationMove,
      handleRotationEnd, applyCrop, cancelCrop, toggleCropMode, toggleTextMode,
      handleTextChange, handleTextPositionChange, handleTextDragStart,
      handleRotationStart, positionTextAtBottom, emojiClick, togglePicker,
      resetTextRotation, resetEdits, saveEdits] <;>
    (repeat' split) <;>
    (first
      | exact h
      | exact ⟨by decide, by decide⟩
      | exact rotCW_bounds s.rotation h.1
      | exact rotCCW_bounds s.rotation h.1
      | simp_all)

theorem mediaRotation_runMedia (s : MediaState) (ops : List MediaOp)
    (h : 0 ≤ s.rotation ∧ s.rotation < 360) :
    0 ≤ (runMedia s ops).rotation ∧ (runMedia s ops).rotation < 360 := by
  induction ops generalizing s with
  | nil => exact h
  | cons op ops ih =>
      exact ih (applyMediaOp s op) (mediaRotation_applyMediaOp s op h)

/-- C9: in every reachable editor state the current rotation lies in
`[0, 360)`, a clockwise rotation yields `(rotation + 90) mod 360` and a
counter-clockwise one `(rotation - 90) mod 360`, both again normalized to
`[0, 360)`, and four clockwise rotations restore the original rotation. -/
theorem media_rotate_spec (s : MediaState) (hr : MediaReachable s) :
    (0 ≤ s.rotation ∧ s.rotation < 360) ∧
    (rotateMedia s "clockwise").rotation = (s.rotation + 90) % 360 ∧
    (rotateMedia s "counter-clockwise").rotation = (s.rotation - 90) % 360 ∧
    (0 ≤ (rotateMedia s "clockwise").rotation ∧
      (rotateMedia s "clockwise").rotation < 360) ∧
    (0 ≤ (rotateMedia s "counter-clockwise").rotation ∧
      (rotateMedia s "counter-clockwise").rotation < 360) ∧
    (rotateMedia (rotateMedia (rotateMedia (rotateMedia s "clockwise")
      "clockwise") "clockwise") "clockwise").rotation = s.rotation := by
  have hb : 0 ≤ s.rotation ∧ s.rotation < 360 := by
    obtain ⟨ops, rfl⟩ := hr
    exact mediaRotation_runMedia mediaInit ops ⟨by decide, by decide⟩
  obtain ⟨h0, h1⟩ := hb
  have hcw := rotCW_eq_emod s.rotation h0
  have hccw := rotCCW_eq_emod s.rotation h0
  refine ⟨⟨h0, h1⟩, ?_, ?_, ?_, ?_, ?_⟩
  · rw [rotateMedia_cw_rotation, hcw]
  · rw [rotateMedia_ccw_rotation, hccw]
  · rw [rotateMedia_cw_rotation, hcw]
    omega
  · rw [rotateMedia_ccw_rotation, hccw]
    omega
  · rw [rotateMedia_cw_rotation, rotateMedia_cw_rotation, rotateMedia_cw_rotation,
      rotateMedia_cw_rotation]
    rw [hcw]
    rw [rotCW_eq_emod _ (by omega : (0 : Int) ≤ (s.rotation + 90) % 360)]
    rw [rotCW_eq_emod _ (by omega : (0 : Int) ≤ ((s.rotation + 90) % 360 + 90) % 360)]
    rw [rotCW_eq_emod _
      (by omega : (0 : Int) ≤ (((s.rotation + 90) % 360 + 90) % 360 + 90) % 360)]
    omega

/-- C9 witness: the rotation algebra at the freshly mounted editor
(`rotation = 0`). -/
theorem media_rotate_spec_witness :
    (0 ≤ mediaInit.rotation ∧ mediaInit.rotation < 360) ∧
    (rotateMedia mediaInit "clockwise").rotation = (mediaInit.rotation + 90) % 360 ∧
    (rotateMedia mediaInit "counter-clockwise").rotation = (mediaInit.rotation - 90) % 360 ∧
    (0 ≤ (rotateMedia mediaInit "clockwise").rotation ∧
      (rotateMedia mediaInit "clockwise").rotation < 360) ∧
    (0 ≤ (rotateMedia mediaInit "counter-clockwise").rotation ∧
      (rotateMedia mediaInit "counter-clockwise").rotation < 360) ∧
    (rotateMedia (rotateMedia (rotateMedia (rotateMedia mediaInit "clockwise")
      "clockwise") "clockwise") "clockwise").rotation = mediaInit.rotation :=
  media_rotate_spec mediaInit ⟨[], rfl⟩

/-- C7: a crop gesture whose corners differ by less than 0.05 on the x axis
or on the y axis is silently discarded: `handleCropEnd` produces no pending
preview and leaves the whole editor state unchanged. -/
theorem media_cropEnd_small_noop (s : MediaState)
    (h : |s.cropEnd.x - s.cropStart.x| < 5 / 100 ∨
      |s.cropEnd.y - s.cropStart.y| < 5 / 100) :
    handleCropEnd s = s := by
  have h' : |s.cropEnd.x - s.cropStart.x| < minSize ∨
      |s.cropEnd.y - s.cropStart.y| < minSize := h
  rw [handleCropEnd]
  by_cases hc : s.isCropping = false
  · rw [if_pos hc]
  · rw [if_neg hc, if_pos h']

/-- C7 witness: at the freshly mounted editor the gesture corners coincide,
so `handleCropEnd` is the identity there. -/
theorem media_cropEnd_small_noop_witness :
    handleCropEnd mediaInit = mediaInit :=
  media_cropEnd_small_noop mediaInit (Or.inl (by norm_num [mediaInit]))

/-- C8: a valid crop gesture (both axes spanning at least 0.05) on image
media whose element reports natural size `w` by `h` synthesizes a pending
raster of `(endX - startX) * w` by `(endY - startY) * h` pixels, the corners
ordered by normalization. -/
theorem media_cropEnd_dims (s : MediaState) (w h : Rat)
    (hcrop : s.isCropping = true)
    (himg : s.mediaType = "image")
    (hnat : s.imageNatural = some (w, h))
    (hx : 5 / 100 ≤ |s.cropEnd.x - s.cropStart.x|)
    (hy : 5 / 100 ≤ |s.cropEnd.y - s.cropStart.y|) :
    (handleCropEnd s).cropPreview = some (MediaUrl.dataUrl
      ((max s.cropStart.x s.cropEnd.x - min s.cropStart.x s.cropEnd.x) * w)
      ((max s.cropStart.y s.cropEnd.y - min s.cropStart.y s.cropEnd.y) * h)
      (mediaMime s)) := by
  have hc1 : ¬ (s.isCropping = false) := by
    simp [hcrop]
  have hc2 : ¬ (|s.cropEnd.x - s.cropStart.x| < minSize ∨
      |s.cropEnd.y - s.cropStart.y| < minSize) := by
    push_neg
    exact ⟨by simpa [minSize] using hx, by simpa [minSize] using hy⟩
  rw [handleCropEnd, if_neg hc1, if_neg hc2, if_pos himg, hnat]

/-- C8 witness: the demo state (natural size 1000 by 500, normalized
rectangle from (0.1, 0.2) to (0.6, 0.8)) yields a 500 by 300 output. -/
theorem media_cropEnd_dims_witness :
    (handleCropEnd cropDemoState).cropPreview =
      some (MediaUrl.dataUrl 500 300 "image/jpeg") := by
  have h := media_cropEnd_dims cropDemoState 1000 500 rfl rfl rfl
    (by norm_num [cropDemoState, mediaInit, abs_of_nonneg])
    (by norm_num [cropDemoState, mediaInit, abs_of_nonneg])
  rw [h]
  norm_num [cropDemoState, mediaInit, mediaMime]

/-- C3 (the code at the failing input): after selecting one image the editor
holds object URL 0; selecting a second valid image allocates object URL 1 and
installs it WITHOUT revoking URL 0, which stays live (`removeMedia`, by
contrast, does revoke).  The state is reachable. -/
theorem media_fileSelection_leak :
    MediaReachable heldUrlState ∧
    heldUrlState.mediaUrl = MediaUrl.objectUrl 0 ∧
    heldUrlState.liveUrls = [0] ∧
    (handleFileSelection heldUrlState ⟨"image/png", 2000⟩).mediaUrl =
      MediaUrl.objectUrl 1 ∧
    (handleFileSelection heldUrlState ⟨"image/png", 2000⟩).liveUrls = [0, 1] ∧
    (removeMedia heldUrlState).liveUrls = [] :=
  ⟨⟨[.selectFile ⟨"image/jpeg", 1000⟩], rfl⟩, rfl, rfl, rfl, rfl, rfl⟩
